import Mathlib

/-!
Verification of the Trading-Dashboard backend.

This file shallowly embeds the backend of the repository in Lean 4 and
proves properties of the embedded code.  Translated components:

* `backend/src/models/ticker.model.ts` — instrument configuration
  (`TICKER_CONFIGS`), the price-simulation engine (`generateNextPrice`,
  `updatePrice`), the historical seed series (`generateHistoricalData`)
  and the read operations (`getTicker`, `getHistoricalData`).
* `backend/src/services/marketData.service.ts` — the symbol → interest-set
  subscription layer (`subscribe`, `unsubscribe`, `unsubscribeAll`).
* the alerts service (`AlertsService`: `createAlert`, `toggleAlert`,
  `checkAlerts`).

Conventions of the embedding:

* JavaScript numbers are modelled as exact rationals (`ℚ`).
* `Math.random()` results are explicit parameters (or an explicit stream
  `rng : ℕ → ℚ`), each assumed to lie in `[0, 1)` where it matters.
* `x.toFixed(2)` followed by `parseFloat` is `round2` (round half up at
  two decimals, which is what ECMAScript `toFixed` does: the closest
  `n / 100`, ties towards the larger `n`).
* Timestamps are abstract instants: `ℕ` for wall-clock stamps, `ℤ`
  (minutes relative to the fixed seed date) for the historical series.
* JavaScript `Map` is an association list, a JavaScript `Set` of
  connections is a `Finset ℕ` of connection identifiers.
-/

/-- `parseFloat(x.toFixed(2))`: round to two decimals, half up. -/
def round2 (x : ℚ) : ℚ := (⌊x * 100 + 1 / 2⌋ : ℤ) / 100

/-- `TickerConfig` from `ticker.model.ts`. -/
structure TickerConfig where
  symbol : String
  name : String
  basePrice : ℚ
  volatility : ℚ
  trend : ℚ
  minPrice : ℚ
  maxPrice : ℚ
  baseVolume : ℚ
  deriving DecidableEq

/-- The eight instrument configurations of `TICKER_CONFIGS`. -/
def TICKER_CONFIGS : List TickerConfig :=
  [ ⟨"AAPL", "Apple Inc.", 180, 15/1000, 1/10, 150, 220, 75000000⟩,
    ⟨"TSLA", "Tesla Inc.", 250, 35/1000, 5/100, 180, 320, 100000000⟩,
    ⟨"BTC-USD", "Bitcoin", 45000, 4/100, 15/100, 30000, 70000, 25000000000⟩,
    ⟨"ETH-USD", "Ethereum", 2500, 45/1000, 1/10, 1500, 4000, 15000000000⟩,
    ⟨"GOOGL", "Alphabet Inc.", 140, 18/1000, 8/100, 120, 170, 25000000⟩,
    ⟨"MSFT", "Microsoft Corp.", 380, 12/1000, 12/100, 340, 430, 30000000⟩,
    ⟨"AMZN", "Amazon.com Inc.", 150, 22/1000, 6/100, 120, 180, 60000000⟩,
    ⟨"SPY", "S&P 500 ETF", 450, 8/1000, 7/100, 420, 480, 80000000⟩ ]

/-- The shared `Ticker` interface (`shared/types/ticker.types.ts`). -/
structure Ticker where
  symbol : String
  name : String
  price : ℚ
  previousClose : ℚ
  change : ℚ
  changePercent : ℚ
  volume : ℚ
  high : ℚ
  low : ℚ
  timestamp : ℕ
  deriving DecidableEq

/-- The shared `HistoricalDataPoint` interface.  `open` is a Lean keyword,
so that field is called `openP` here. -/
structure HistoricalDataPoint where
  timestamp : ℤ
  openP : ℚ
  high : ℚ
  low : ℚ
  close : ℚ
  volume : ℤ
  deriving DecidableEq

/-- `TickerModel.generateNextPrice`.  The two `Math.random()` calls are the
parameters `rMomentum` and `rNoise`. -/
def generateNextPrice (currentPrice : ℚ) (config : TickerConfig)
    (rMomentum rNoise : ℚ) : ℚ :=
  let momentum := (rMomentum - 1/2) * (3/10)
  let noise := (rNoise - 1/2) * (1/10)
  let trendComponent := config.trend * (1/100)
  let changePercent := (momentum + noise + trendComponent) * config.volatility
  let change := currentPrice * changePercent
  let newPrice := currentPrice + change
  let deviation := (newPrice - config.basePrice) / config.basePrice
  let newPrice1 :=
    if 1/5 < |deviation| then newPrice - deviation * config.basePrice * (5/100)
    else newPrice
  let newPrice2 := max config.minPrice (min config.maxPrice newPrice1)
  round2 newPrice2

/-- The candidate next price of `generateNextPrice` before mean reversion
and clamping (the value the source calls `newPrice`). -/
def candidatePrice (currentPrice : ℚ) (config : TickerConfig)
    (rMomentum rNoise : ℚ) : ℚ :=
  currentPrice +
    currentPrice *
      (((rMomentum - 1/2) * (3/10) + (rNoise - 1/2) * (1/10) +
          config.trend * (1/100)) * config.volatility)

/-- The in-memory state of `TickerModel`: the two `Map`s. -/
structure TickerModelState where
  currentPrices : List (String × Ticker)
  historicalData : List (String × List HistoricalDataPoint)

/-- `Map.get` on an association list. -/
def lookupA {α : Type} (l : List (String × α)) (k : String) : Option α :=
  match l with
  | [] => none
  | (a, b) :: tl => if a = k then some b else lookupA tl k

/-- `Map.set` on an association list for a key that is already present
(the only way the source mutates existing entries). -/
def updateAssoc {α : Type} (l : List (String × α)) (k : String) (v : α) :
    List (String × α) :=
  l.map (fun p => if p.1 = k then (k, v) else p)

/-- The pure per-ticker part of `TickerModel.updatePrice`: the mutation of
one `Ticker`.  `rM`/`rN` feed `generateNextPrice`; `rVol` is the
`Math.random()` of the volume increment; `now` is the update instant. -/
def updateTicker (ticker : Ticker) (config : TickerConfig)
    (rM rN rVol : ℚ) (now : ℕ) : Ticker :=
  let newPrice := generateNextPrice ticker.price config rM rN
  { ticker with
    price := newPrice
    change := newPrice - ticker.previousClose
    changePercent := (newPrice - ticker.previousClose) / ticker.previousClose * 100
    high := max ticker.high newPrice
    low := min ticker.low newPrice
    volume := ticker.volume + (⌊rVol * 100000 + 50000⌋ : ℤ)
    timestamp := now }

namespace TickerModel

/-- `TickerModel.updatePrice`: returns `undefined` when the symbol has no
ticker or no config, otherwise mutates the stored ticker. -/
def updatePrice (st : TickerModelState) (symbol : String)
    (rM rN rVol : ℚ) (now : ℕ) : Option Ticker × TickerModelState :=
  match lookupA st.currentPrices symbol,
        TICKER_CONFIGS.find? (fun c => c.symbol == symbol) with
  | some ticker, some config =>
      let t' := updateTicker ticker config rM rN rVol now
      (some t', { st with currentPrices := updateAssoc st.currentPrices symbol t' })
  | _, _ => (none, st)

/-- `TickerModel.getTicker`. -/
def getTicker (st : TickerModelState) (symbol : String) : Option Ticker :=
  lookupA st.currentPrices symbol

/-- `TickerModel.getHistoricalData`: `this.historicalData.get(symbol) || []`. -/
def getHistoricalData (st : TickerModelState) (symbol : String) :
    List HistoricalDataPoint :=
  (lookupA st.historicalData symbol).getD []

end TickerModel

/-! ### Historical seed generation (`TickerModel.generateHistoricalData`)

The candle grid is fixed by the source: for each of the 29 past days
(`day = 30` down to `2`) two 4-hour candles at 9:30 and 13:30, then 26
fifteen-minute candles for the seed day starting at 9:30.  Timestamps are
minutes relative to midnight of the seed date `2025-08-11`. -/

/-- Timestamps of the two daily candles of each past day. -/
def dailyTimestamps : List ℤ :=
  (List.range 29).flatMap (fun k =>
    [-(((30 - k : ℕ)) : ℤ) * 1440 + 570, -(((30 - k : ℕ)) : ℤ) * 1440 + 810])

/-- Timestamps of the 26 intraday candles of the seed day. -/
def intradayTimestamps : List ℤ :=
  (List.range 26).map (fun k => (570 + 15 * (k : ℤ)))

/-- One loop of `generateHistoricalData`: emit a candle per timestamp.
`coeff` is the volatility multiplier of the high/low spread (`0.5` in the
daily loop, `0.3` in the intraday loop); `volBase + r * volRange` is the
volume factor (`0.3 + r * 0.4` daily, `0.1 + r * 0.2` intraday).  Each
candle consumes five `Math.random()` values from the stream `rng`,
starting at index `i`.  Returns the candles, the running price after the
loop, and the next unused stream index. -/
def genLoop (cfg : TickerConfig) (rng : ℕ → ℚ) (coeff volBase volRange : ℚ) :
    List ℤ → ℚ → ℕ → List HistoricalDataPoint × ℚ × ℕ
  | [], price, i => ([], price, i)
  | ts :: rest, price, i =>
      let close := generateNextPrice price cfg (rng i) (rng (i + 1))
      let high := max price close * (1 + rng (i + 2) * cfg.volatility * coeff)
      let low := min price close * (1 - rng (i + 3) * cfg.volatility * coeff)
      let volume := (⌊cfg.baseVolume * (volBase + rng (i + 4) * volRange)⌋ : ℤ)
      let rest' := genLoop cfg rng coeff volBase volRange rest close (i + 5)
      (⟨ts, round2 price, round2 high, round2 low, round2 close, volume⟩ :: rest'.1,
       rest'.2)

/-- `generateHistoricalData` for one symbol: the 29-day daily loop seeded
from the base price, then the intraday loop continuing from its final
price.  Returns the series and the final running price (the value the
source leaves in `currentPrice` for real-time continuity). -/
def generateHistoricalData (cfg : TickerConfig) (rng : ℕ → ℚ) :
    List HistoricalDataPoint × ℚ :=
  let daily := genLoop cfg rng (1/2) (3/10) (2/5) dailyTimestamps cfg.basePrice 0
  let intra := genLoop cfg rng (3/10) (1/10) (1/5) intradayTimestamps daily.2.1 daily.2.2
  (daily.1 ++ intra.1, intra.2.1)

/-- `Math.max(...list)` over a nonempty list (the source only applies it to
the nonempty `history.slice(-26)`). -/
def listMax : List ℚ → ℚ
  | [] => 0
  | x :: xs => xs.foldl max x

/-- `Math.min(...list)` over a nonempty list. -/
def listMin : List ℚ → ℚ
  | [] => 0
  | x :: xs => xs.foldl min x

/-- The per-ticker mutation at the end of `generateHistoricalData`:
store the running price as the live price, take the previous close from
the second-to-last candle (JS `history[history.length - 2]?.close ||
currentPrice`, so a zero close also falls back), and the session high/low
from the last 26 candles. -/
def adjustFromHistory (t : Ticker) (history : List HistoricalDataPoint)
    (currentPrice : ℚ) : Ticker :=
  { t with
    price := currentPrice
    previousClose :=
      match history.get? (history.length - 2) with
      | some p => if p.close = 0 then currentPrice else p.close
      | none => currentPrice
    high := listMax ((history.drop (history.length - 26)).map (·.high))
    low := listMin ((history.drop (history.length - 26)).map (·.low)) }

/-- `initializeTickers` body for one config.  `rPrev` and `rVol` are the
two `Math.random()` calls. -/
def initializeTicker (config : TickerConfig) (rPrev rVol : ℚ) (now : ℕ) : Ticker :=
  let previousClose := config.basePrice * (1 - rPrev * (2/100))
  { symbol := config.symbol
    name := config.name
    price := config.basePrice
    previousClose := previousClose
    change := config.basePrice - previousClose
    changePercent := (config.basePrice - previousClose) / previousClose * 100
    volume := (⌊config.baseVolume * (8/10 + rVol * (4/10))⌋ : ℤ)
    high := config.basePrice * (101/100)
    low := config.basePrice * (99/100)
    timestamp := now }

namespace TickerModel

/-- The `TickerModel` constructor: `initializeTickers` (two random draws
per config) followed by `generateHistoricalData` (420 draws per config,
plus the final per-ticker adjustment).  All draws come from the single
stream `rng`, initialization first, then the per-config history blocks in
config order.  It is total: the source performs no validation of the
instrument configs and has no failure path. -/
def init (configs : List TickerConfig) (rng : ℕ → ℚ) (now : ℕ) :
    TickerModelState :=
  let n := configs.length
  { currentPrices := configs.enum.map (fun p =>
      let t0 := initializeTicker p.2 (rng (2 * p.1)) (rng (2 * p.1 + 1)) now
      let hist := generateHistoricalData p.2 (fun i => rng (2 * n + 420 * p.1 + i))
      (p.2.symbol, adjustFromHistory t0 hist.1 hist.2))
    historicalData := configs.enum.map (fun p =>
      (p.2.symbol, (generateHistoricalData p.2 (fun i => rng (2 * n + 420 * p.1 + i))).1)) }

end TickerModel

/-! ### Arithmetic facts about `round2` -/

theorem round2_mono {x y : ℚ} (h : x ≤ y) : round2 x ≤ round2 y := by
  unfold round2
  have hf : (⌊x * 100 + 1/2⌋ : ℤ) ≤ ⌊y * 100 + 1/2⌋ :=
    Int.floor_le_floor (by linarith)
  have hf' : ((⌊x * 100 + 1/2⌋ : ℤ) : ℚ) ≤ ((⌊y * 100 + 1/2⌋ : ℤ) : ℚ) := by
    exact_mod_cast hf
  linarith

theorem round2_err (x : ℚ) : |round2 x - x| ≤ 1 / 200 := by
  unfold round2
  have h1 : (⌊x * 100 + 1/2⌋ : ℚ) ≤ x * 100 + 1/2 := Int.floor_le _
  have h2 : x * 100 + 1/2 - 1 < (⌊x * 100 + 1/2⌋ : ℚ) := Int.sub_one_lt_floor _
  rw [abs_le]
  constructor <;> linarith

/-- Evaluation rule for `round2` used on concrete inputs. -/
theorem round2_eval (x : ℚ) (a : ℤ) (h1 : (a : ℚ) ≤ x * 100 + 1/2)
    (h2 : x * 100 + 1/2 < a + 1) : round2 x = (a : ℚ) / 100 := by
  unfold round2
  rw [Int.floor_eq_iff.mpr ⟨h1, h2⟩]

theorem round2_intCast (n : ℤ) : round2 ((n : ℚ)) = (n : ℚ) := by
  rw [round2_eval ((n : ℚ)) (100 * n) (by push_cast; linarith) (by push_cast; linarith)]
  push_cast
  ring

theorem round2_eq_self_of_intCast (x : ℚ) (n : ℤ) (h : x = (n : ℚ)) :
    round2 x = x := by
  subst h; exact round2_intCast n

theorem round2_min (a b : ℚ) : round2 (min a b) = min (round2 a) (round2 b) := by
  rcases le_total a b with h | h
  · rw [min_eq_left h, min_eq_left (round2_mono h)]
  · rw [min_eq_right h, min_eq_right (round2_mono h)]

theorem round2_max (a b : ℚ) : round2 (max a b) = max (round2 a) (round2 b) := by
  rcases le_total a b with h | h
  · rw [max_eq_right h, max_eq_right (round2_mono h)]
  · rw [max_eq_left h, max_eq_left (round2_mono h)]

/-- The clamp `Math.max(lo, Math.min(hi, x))` never moves a point further
from anything inside the bounds. -/
theorem clamp_abs_le {lo hi b x : ℚ} (hlo : lo ≤ b) (hhi : b ≤ hi) :
    |max lo (min hi x) - b| ≤ |x - b| := by
  have hx1 := le_abs_self (x - b)
  have hx2 := neg_abs_le (x - b)
  have habs : 0 ≤ |x - b| := abs_nonneg _
  rcases le_total x lo with h | h
  · have hmin : min hi x = x := min_eq_right (h.trans (hlo.trans hhi))
    rw [hmin, max_eq_left h, abs_le]
    constructor <;> linarith
  · rcases le_total x hi with h' | h'
    · rw [min_eq_right h', max_eq_right h]
    · rw [min_eq_left h', max_eq_right (hlo.trans hhi), abs_le]
      constructor <;> linarith

/-- Numeric facts about every entry of `TICKER_CONFIGS`, used throughout:
two-decimal representable bounds, ordered bounds, base price inside the
bounds and at least `140`, nonnegative volatility. -/
theorem config_facts :
    ∀ cfg ∈ TICKER_CONFIGS,
      round2 cfg.minPrice = cfg.minPrice ∧
      round2 cfg.maxPrice = cfg.maxPrice ∧
      cfg.minPrice ≤ cfg.maxPrice ∧
      0 < cfg.minPrice ∧
      cfg.minPrice ≤ cfg.basePrice ∧
      cfg.basePrice ≤ cfg.maxPrice ∧
      (140 : ℚ) ≤ cfg.basePrice ∧
      0 ≤ cfg.volatility := by
  intro cfg hmem
  fin_cases hmem
  exacts
    [⟨round2_eq_self_of_intCast _ 150 (by norm_num),
      round2_eq_self_of_intCast _ 220 (by norm_num),
      by norm_num, by norm_num, by norm_num, by norm_num, by norm_num, by norm_num⟩,
     ⟨round2_eq_self_of_intCast _ 180 (by norm_num),
      round2_eq_self_of_intCast _ 320 (by norm_num),
      by norm_num, by norm_num, by norm_num, by norm_num, by norm_num, by norm_num⟩,
     ⟨round2_eq_self_of_intCast _ 30000 (by norm_num),
      round2_eq_self_of_intCast _ 70000 (by norm_num),
      by norm_num, by norm_num, by norm_num, by norm_num, by norm_num, by norm_num⟩,
     ⟨round2_eq_self_of_intCast _ 1500 (by norm_num),
      round2_eq_self_of_intCast _ 4000 (by norm_num),
      by norm_num, by norm_num, by norm_num, by norm_num, by norm_num, by norm_num⟩,
     ⟨round2_eq_self_of_intCast _ 120 (by norm_num),
      round2_eq_self_of_intCast _ 170 (by norm_num),
      by norm_num, by norm_num, by norm_num, by norm_num, by norm_num, by norm_num⟩,
     ⟨round2_eq_self_of_intCast _ 340 (by norm_num),
      round2_eq_self_of_intCast _ 430 (by norm_num),
      by norm_num, by norm_num, by norm_num, by norm_num, by norm_num, by norm_num⟩,
     ⟨round2_eq_self_of_intCast _ 120 (by norm_num),
      round2_eq_self_of_intCast _ 180 (by norm_num),
      by norm_num, by norm_num, by norm_num, by norm_num, by norm_num, by norm_num⟩,
     ⟨round2_eq_self_of_intCast _ 420 (by norm_num),
      round2_eq_self_of_intCast _ 480 (by norm_num),
      by norm_num, by norm_num, by norm_num, by norm_num, by norm_num, by norm_num⟩]

/-! ### Alerts service (`AlertsService`) -/

/-- The `'above' | 'below'` union of `PriceAlert.type`. -/
inductive AlertType
  | above
  | below
  deriving DecidableEq

/-- `PriceAlert` from the alerts service.  `triggeredAt` is optional
(absent until the alert fires). -/
structure PriceAlert where
  id : String
  userId : String
  symbol : String
  type : AlertType
  threshold : ℚ
  active : Bool
  triggeredAt : Option ℕ
  createdAt : ℕ
  deriving DecidableEq

/-- `AlertsService.alerts`: the user-id → alert-list `Map`. -/
def AlertsState := List (String × List PriceAlert)

/-- The firing condition of `checkAlerts` for one alert and one ticker:
matching symbol, `active`, not yet triggered (`alert.triggeredAt` is
falsy), and the threshold comparison of the alert's direction
(`above` fires at `price ≥ threshold`, `below` at `price ≤ threshold`).
The symbol/active part is the `getSymbolAlerts` filter; the rest is the
guard and `shouldTrigger` inside the `checkAlerts` loop. -/
def fireCond (a : PriceAlert) (t : Ticker) : Bool :=
  a.symbol == t.symbol && a.active && a.triggeredAt.isNone &&
    ((a.type == AlertType.above && decide (a.threshold ≤ t.price)) ||
     (a.type == AlertType.below && decide (t.price ≤ a.threshold)))

/-- The mutation applied to an alert that fires: stamp `triggeredAt`,
clear `active`. -/
def fireAlert (a : PriceAlert) (now : ℕ) : PriceAlert :=
  { a with triggeredAt := some now, active := false }

/-- What `checkAlerts` does to a single stored alert. -/
def checkOne (t : Ticker) (now : ℕ) (a : PriceAlert) : PriceAlert :=
  if fireCond a t then fireAlert a now else a

namespace AlertsService

/-- `AlertsService.checkAlerts`: returns the list of alerts triggered by
this ticker update (one `alert-triggered` event is emitted per element)
and the updated alert store. -/
def checkAlerts (alerts : AlertsState) (t : Ticker) (now : ℕ) :
    List PriceAlert × AlertsState :=
  (alerts.flatMap (fun u => ((u.2.filter (fun a => fireCond a t)).map
      (fun a => fireAlert a now))),
   alerts.map (fun u => (u.1, u.2.map (checkOne t now))))

/-- `toggleAlert`'s effect on a user's alert list: flip `active` on the
first alert with the given id (`userAlerts.find(...)` returns the first
match, which the source then mutates in place). -/
def toggleFirst (alertId : String) : List PriceAlert → List PriceAlert
  | [] => []
  | a :: rest =>
      if a.id == alertId then { a with active := !a.active } :: rest
      else a :: toggleFirst alertId rest

/-- `AlertsService.toggleAlert`: `null` when the user or the alert does
not exist, otherwise the flipped alert and the updated store. -/
def toggleAlert (st : AlertsState) (userId alertId : String) :
    Option PriceAlert × AlertsState :=
  match lookupA st userId with
  | none => (none, st)
  | some userAlerts =>
      match userAlerts.find? (fun a => a.id == alertId) with
      | none => (none, st)
      | some a => (some { a with active := !a.active },
                   updateAssoc st userId (toggleFirst alertId userAlerts))

/-- Feed a sequence of ticks (each a ticker snapshot with its timestamp)
through `checkAlerts`, accumulating every triggered event. -/
def runTicks (st : AlertsState) : List (Ticker × ℕ) → List PriceAlert × AlertsState
  | [] => ([], st)
  | (t, n) :: rest =>
      let step := checkAlerts st t n
      let next := runTicks step.2 rest
      (step.1 ++ next.1, next.2)

end AlertsService

/-! ### Subscription & broadcast layer (`MarketDataService`) -/

/-- The outbound `price_update` payload built by `subscribe` and
`broadcastPriceUpdate`. -/
structure PriceUpdate where
  symbol : String
  price : ℚ
  change : ℚ
  changePercent : ℚ
  volume : ℚ
  timestamp : ℕ
  deriving DecidableEq

/-- The snapshot a `price_update` message carries for a ticker. -/
def tickerToPriceUpdate (t : Ticker) : PriceUpdate :=
  ⟨t.symbol, t.price, t.change, t.changePercent, t.volume, t.timestamp⟩

/-- `MarketDataService` state: the symbol → interest-set map
(`subscribers`, a `Map<string, Set<WebSocket>>`, connections as numeric
identifiers) and the owned `TickerModel`. -/
structure MDState where
  subscribers : List (String × Finset ℕ)
  tickers : TickerModelState

namespace MarketDataService

/-- `MarketDataService.subscribe`: `false` for an unknown symbol,
otherwise add the connection to the symbol's interest set and immediately
send it a `price_update` with the current ticker snapshot.  The returned
list is the messages pushed to `ws` by this call. -/
def subscribe (st : MDState) (symbol : String) (ws : ℕ) :
    Bool × MDState × List PriceUpdate :=
  match lookupA st.subscribers symbol with
  | none => (false, st, [])
  | some subs =>
      let st' := { st with subscribers := updateAssoc st.subscribers symbol (insert ws subs) }
      match TickerModel.getTicker st.tickers symbol with
      | some t => (true, st', [tickerToPriceUpdate t])
      | none => (true, st', [])

/-- `MarketDataService.unsubscribe`: `false` for an unknown symbol,
otherwise remove the connection, reporting whether it was present. -/
def unsubscribe (st : MDState) (symbol : String) (ws : ℕ) : Bool × MDState :=
  match lookupA st.subscribers symbol with
  | none => (false, st)
  | some subs =>
      (decide (ws ∈ subs),
       { st with subscribers := updateAssoc st.subscribers symbol (subs.erase ws) })

/-- `subscribe` immediately followed by `unsubscribe` of the same
connection and symbol (state part only). -/
def subscribeThenUnsubscribe (st : MDState) (symbol : String) (ws : ℕ) : MDState :=
  (unsubscribe (subscribe st symbol ws).2.1 symbol ws).2

/-- `MarketDataService.getHistoricalData` (delegates to the model). -/
def getHistoricalData (st : MDState) (symbol : String) : List HistoricalDataPoint :=
  TickerModel.getHistoricalData st.tickers symbol

/-- `MarketDataService.getTicker` (delegates to the model). -/
def getTicker (st : MDState) (symbol : String) : Option Ticker :=
  TickerModel.getTicker st.tickers symbol

end MarketDataService

/-- The value `generateNextPrice` clamps: the candidate price after the
mean-reversion step (`newPrice` after the `Math.abs(deviation) > 0.2`
correction). -/
def mitigated (currentPrice : ℚ) (config : TickerConfig) (rMomentum rNoise : ℚ) : ℚ :=
  let c := candidatePrice currentPrice config rMomentum rNoise
  let deviation := (c - config.basePrice) / config.basePrice
  if 1/5 < |deviation| then c - deviation * config.basePrice * (5/100) else c

/-- A malformed instrument config: `minPrice ≥ maxPrice`. -/
def badTickerConfig : TickerConfig :=
  ⟨"BAD", "Malformed Instrument", 7, 1/100, 0, 10, 5, 1000⟩

/-- A concrete stored AAPL ticker whose previous close (100) differs from
its current price (180). -/
def aaplTicker0 : Ticker := ⟨"AAPL", "Apple Inc.", 180, 100, 80, 80, 1000, 182, 178, 0⟩

/-- A concrete `TickerModel` state holding `aaplTicker0`. -/
def c3State : TickerModelState := ⟨[("AAPL", aaplTicker0)], []⟩

/-- A concrete market-data state in which connection `0` is already in
AAPL's interest set. -/
def c5MDState : MDState := ⟨[("AAPL", {0})], ⟨[], []⟩⟩

/-! ## Supporting lemmas -/

theorem lookup_updateAssoc {α : Type} (l : List (String × α)) (k : String) (v : α) :
    lookupA (updateAssoc l k v) k = (lookupA l k).map (fun _ => v) := by
  induction l with
  | nil => rfl
  | cons p tl ih =>
      rcases p with ⟨a, b⟩
      by_cases h : a = k
      · subst h
        have e1 : updateAssoc ((a, b) :: tl) a v = (a, v) :: updateAssoc tl a v := by
          simp [updateAssoc]
        have e2 : lookupA ((a, v) :: updateAssoc tl a v) a = some v := by
          simp [lookupA]
        have e3 : lookupA ((a, b) :: tl) a = some b := by
          simp [lookupA]
        rw [e1, e2, e3]
        rfl
      · have e1 : updateAssoc ((a, b) :: tl) k v = (a, b) :: updateAssoc tl k v := by
          simp [updateAssoc, h]
        have e2 : lookupA ((a, b) :: updateAssoc tl k v) k =
            lookupA (updateAssoc tl k v) k := by
          simp [lookupA, h]
        have e3 : lookupA ((a, b) :: tl) k = lookupA tl k := by
          simp [lookupA, h]
        rw [e1, e2, e3, ih]

theorem updateAssoc_updateAssoc {α : Type} (l : List (String × α)) (k : String) (v v' : α) :
    updateAssoc (updateAssoc l k v) k v' = updateAssoc l k v' := by
  unfold updateAssoc
  rw [List.map_map]
  apply List.map_congr_left
  intro p _
  by_cases h : p.1 = k
  · subst h
    simp [Function.comp]
  · simp [Function.comp, h]

/-- `generateNextPrice` is `round2` of the clamped mean-reverted candidate. -/
theorem generateNextPrice_eq (p : ℚ) (cfg : TickerConfig) (rM rN : ℚ) :
    generateNextPrice p cfg rM rN =
      round2 (max cfg.minPrice (min cfg.maxPrice (mitigated p cfg rM rN))) := rfl

theorem round2_clamp_mem (lo hi x : ℚ) (h1 : round2 lo = lo) (h2 : round2 hi = hi)
    (h3 : lo ≤ hi) :
    lo ≤ round2 (max lo (min hi x)) ∧ round2 (max lo (min hi x)) ≤ hi := by
  constructor
  · calc lo = round2 lo := h1.symm
      _ ≤ round2 (max lo (min hi x)) := round2_mono (le_max_left _ _)
  · calc round2 (max lo (min hi x)) ≤ round2 hi :=
        round2_mono (max_le h3 (min_le_left _ _))
      _ = hi := h2

theorem generateNextPrice_bounds (p : ℚ) (cfg : TickerConfig) (rM rN : ℚ)
    (h1 : round2 cfg.minPrice = cfg.minPrice) (h2 : round2 cfg.maxPrice = cfg.maxPrice)
    (h3 : cfg.minPrice ≤ cfg.maxPrice) :
    cfg.minPrice ≤ generateNextPrice p cfg rM rN ∧
      generateNextPrice p cfg rM rN ≤ cfg.maxPrice := by
  rw [generateNextPrice_eq]
  exact round2_clamp_mem _ _ _ h1 h2 h3

theorem generateNextPrice_ge_min (p : ℚ) (cfg : TickerConfig) (rM rN : ℚ)
    (h1 : round2 cfg.minPrice = cfg.minPrice) :
    cfg.minPrice ≤ generateNextPrice p cfg rM rN := by
  rw [generateNextPrice_eq]
  calc cfg.minPrice = round2 cfg.minPrice := h1.symm
    _ ≤ round2 (max cfg.minPrice (min cfg.maxPrice (mitigated p cfg rM rN))) :=
      round2_mono (le_max_left _ _)

/-- The candle grid of the seed series does not depend on the prices: the
emitted timestamps are exactly the input timestamps. -/
theorem genLoop_timestamps (cfg : TickerConfig) (rng : ℕ → ℚ)
    (coeff volBase volRange : ℚ) (ts : List ℤ) :
    ∀ (price : ℚ) (i : ℕ),
      ((genLoop cfg rng coeff volBase volRange ts price i).1).map (·.timestamp) = ts := by
  induction ts with
  | nil => intro price i; rfl
  | cons t rest ih => intro price i; simp [genLoop, ih]

/-- The running price after a generation loop stays at or above `minPrice`
bounded below by `0` (every emitted close is clamped). -/
theorem genLoop_price_nonneg (cfg : TickerConfig) (rng : ℕ → ℚ)
    (coeff volBase volRange : ℚ) (hmin0 : 0 ≤ cfg.minPrice)
    (h1 : round2 cfg.minPrice = cfg.minPrice) (ts : List ℤ) :
    ∀ (price : ℚ) (i : ℕ), 0 ≤ price →
      0 ≤ (genLoop cfg rng coeff volBase volRange ts price i).2.1 := by
  induction ts with
  | nil => intro price i hp; exact hp
  | cons t rest ih =>
      intro price i hp
      have hc : 0 ≤ generateNextPrice price cfg (rng i) (rng (i + 1)) :=
        le_trans hmin0 (generateNextPrice_ge_min _ _ _ _ h1)
      simpa [genLoop] using ih _ (i + 5) hc

/-- Every candle a generation loop emits satisfies the OHLC envelope
`low ≤ min(open, close)` and `max(open, close) ≤ high`. -/
theorem genLoop_ohlc (cfg : TickerConfig) (rng : ℕ → ℚ)
    (coeff volBase volRange : ℚ) (hrng : ∀ i, 0 ≤ rng i)
    (hvol : 0 ≤ cfg.volatility) (hcoeff : 0 ≤ coeff)
    (hmin0 : 0 ≤ cfg.minPrice) (h1 : round2 cfg.minPrice = cfg.minPrice)
    (ts : List ℤ) :
    ∀ (price : ℚ) (i : ℕ), 0 ≤ price →
      ∀ pt ∈ (genLoop cfg rng coeff volBase volRange ts price i).1,
        pt.low ≤ min pt.openP pt.close ∧ max pt.openP pt.close ≤ pt.high := by
  induction ts with
  | nil => intro price i hp pt hpt; simp [genLoop] at hpt
  | cons t rest ih =>
      intro price i hp pt hpt
      have hc : 0 ≤ generateNextPrice price cfg (rng i) (rng (i + 1)) :=
        le_trans hmin0 (generateNextPrice_ge_min _ _ _ _ h1)
      simp only [genLoop, List.mem_cons] at hpt
      rcases hpt with rfl | hpt
      · set close := generateNextPrice price cfg (rng i) (rng (i + 1)) with hclose
        constructor
        · show round2 (min price close * (1 - rng (i + 3) * cfg.volatility * coeff)) ≤
            min (round2 price) (round2 close)
          have hmn : 0 ≤ min price close := le_min hp hc
          have hx : 0 ≤ min price close * (rng (i + 3) * cfg.volatility * coeff) :=
            mul_nonneg hmn (mul_nonneg (mul_nonneg (hrng _) hvol) hcoeff)
          have hfac : min price close * (1 - rng (i + 3) * cfg.volatility * coeff) ≤
              min price close := by nlinarith
          calc round2 (min price close * (1 - rng (i + 3) * cfg.volatility * coeff))
              ≤ round2 (min price close) := round2_mono hfac
            _ = min (round2 price) (round2 close) := round2_min _ _
        · show max (round2 price) (round2 close) ≤
            round2 (max price close * (1 + rng (i + 2) * cfg.volatility * coeff))
          have hmx : 0 ≤ max price close := le_trans hp (le_max_left _ _)
          have hx : 0 ≤ max price close * (rng (i + 2) * cfg.volatility * coeff) :=
            mul_nonneg hmx (mul_nonneg (mul_nonneg (hrng _) hvol) hcoeff)
          have hfac : max price close ≤
              max price close * (1 + rng (i + 2) * cfg.volatility * coeff) := by nlinarith
          calc max (round2 price) (round2 close) = round2 (max price close) :=
              (round2_max _ _).symm
            _ ≤ round2 (max price close * (1 + rng (i + 2) * cfg.volatility * coeff)) :=
              round2_mono hfac
      · exact ih _ (i + 5) hc pt hpt

/-- The 84 candle timestamps of the seed series are strictly increasing. -/
theorem seed_timestamps_sorted :
    List.Pairwise (· < ·) (dailyTimestamps ++ intradayTimestamps) := by decide

/-- A fired alert (`triggeredAt` present) never satisfies the firing
condition again, whatever the tick. -/
theorem fireCond_of_triggered (a : PriceAlert) (t : Ticker)
    (h : a.triggeredAt.isSome) : fireCond a t = false := by
  rcases ha : a.triggeredAt with _ | v
  · rw [ha] at h; simp at h
  · simp [fireCond, ha]

/-- `checkAlerts` on a store holding exactly one already-fired alert emits
nothing and leaves the store unchanged. -/
theorem checkAlerts_fired_singleton (u : String) (a : PriceAlert)
    (h : a.triggeredAt.isSome) (t : Ticker) (n : ℕ) :
    AlertsService.checkAlerts [(u, [a])] t n = ([], [(u, [a])]) := by
  simp [AlertsService.checkAlerts, checkOne, fireCond_of_triggered a t h]

/-- Iterating `checkAlerts` over any tick sequence on a store holding one
already-fired alert emits nothing and never changes the store. -/
theorem runTicks_fired_singleton (u : String) (a : PriceAlert)
    (h : a.triggeredAt.isSome) :
    ∀ ticks : List (Ticker × ℕ),
      AlertsService.runTicks [(u, [a])] ticks = ([], [(u, [a])]) := by
  intro ticks
  induction ticks with
  | nil => rfl
  | cons tn rest ih =>
      rcases tn with ⟨t, n⟩
      simp [AlertsService.runTicks, checkAlerts_fired_singleton u a h t n, ih]

/-- Flipping the first matching alert twice restores the list. -/
theorem toggleFirst_toggleFirst (i : String) (as : List PriceAlert) :
    AlertsService.toggleFirst i (AlertsService.toggleFirst i as) = as := by
  induction as with
  | nil => rfl
  | cons a rest ih =>
      by_cases h : (a.id == i)
      · simp [AlertsService.toggleFirst, h, Bool.not_not]
      · simp [AlertsService.toggleFirst, h, ih]

/-- `toggleFirst` never touches `triggeredAt`. -/
theorem toggleFirst_triggeredAt (i : String) (as : List PriceAlert) :
    (AlertsService.toggleFirst i as).map (·.triggeredAt) = as.map (·.triggeredAt) := by
  induction as with
  | nil => rfl
  | cons a rest ih =>
      by_cases h : (a.id == i)
      · simp [AlertsService.toggleFirst, h]
      · simp [AlertsService.toggleFirst, h, ih]

/-- Every alert in the toggled list is an original alert, possibly with
only its `active` flag flipped. -/
theorem toggleFirst_shape (i : String) (as : List PriceAlert) :
    ∀ a' ∈ AlertsService.toggleFirst i as,
      ∃ b ∈ as, a' = b ∨ a' = { b with active := !b.active } := by
  induction as with
  | nil => intro a' h; simp [AlertsService.toggleFirst] at h
  | cons a rest ih =>
      intro a' h
      by_cases hid : (a.id == i)
      · simp only [AlertsService.toggleFirst, hid, if_true, List.mem_cons] at h
        rcases h with rfl | h
        · exact ⟨a, List.mem_cons_self _ _, Or.inr rfl⟩
        · exact ⟨a', List.mem_cons_of_mem _ h, Or.inl rfl⟩
      · simp only [AlertsService.toggleFirst, hid, Bool.false_eq_true, if_false,
          List.mem_cons] at h
        rcases h with rfl | h
        · exact ⟨a', List.mem_cons_self _ _, Or.inl rfl⟩
        · obtain ⟨b, hb, hor⟩ := ih a' h
          exact ⟨b, List.mem_cons_of_mem _ hb, hor⟩

/-- If no alert in the list has the requested id, `toggleFirst` is the
identity. -/
theorem toggleFirst_of_find?_none (i : String) (as : List PriceAlert)
    (h : as.find? (fun a => a.id == i) = none) :
    AlertsService.toggleFirst i as = as := by
  induction as with
  | nil => rfl
  | cons a rest ih =>
      rw [List.find?_cons] at h
      by_cases hid : (a.id == i)
      · simp [hid] at h
      · simp only [hid, Bool.false_eq_true, if_false, cond_false] at h
        simp [AlertsService.toggleFirst, hid, ih h]

/-- The state after `subscribe` on a known symbol: the connection is added
to that symbol's interest set (everything else unchanged). -/
theorem subscribe_state_known (st : MDState) (s : String) (w : ℕ) (S : Finset ℕ)
    (h : lookupA st.subscribers s = some S) :
    (MarketDataService.subscribe st s w).2.1 =
      { st with subscribers := updateAssoc st.subscribers s (insert w S) } := by
  unfold MarketDataService.subscribe
  rw [h]
  rcases hgt : TickerModel.getTicker st.tickers s with _ | t <;> simp [hgt]

/-- `subscribe` on a known symbol returns `true` and immediately pushes the
current ticker snapshot to the connection. -/
theorem subscribe_result_known (st : MDState) (s : String) (w : ℕ) (S : Finset ℕ)
    (t : Ticker) (h : lookupA st.subscribers s = some S)
    (ht : TickerModel.getTicker st.tickers s = some t) :
    (MarketDataService.subscribe st s w).1 = true ∧
      (MarketDataService.subscribe st s w).2.2 = [tickerToPriceUpdate t] := by
  unfold MarketDataService.subscribe
  rw [h, ht]
  exact ⟨rfl, rfl⟩

/-- The state after `unsubscribe` on a known symbol: the connection is
erased from that symbol's interest set. -/
theorem unsubscribe_state_known (st : MDState) (s : String) (w : ℕ) (S : Finset ℕ)
    (h : lookupA st.subscribers s = some S) :
    (MarketDataService.unsubscribe st s w).2 =
      { st with subscribers := updateAssoc st.subscribers s (S.erase w) } := by
  unfold MarketDataService.unsubscribe
  rw [h]

/-! ## Claims -/

/-- C10: for a symbol absent from the registry, `getHistoricalData`
returns `[]` (not an explicit not-found value), which is exactly what it
returns for a known symbol whose history is empty, whereas `getTicker`
returns an absent value for the unknown symbol. -/
theorem spec_C10_unknown_symbol_history_indistinguishable
    (st : MDState) (s s' : String)
    (h1 : lookupA st.tickers.historicalData s = none)
    (h2 : lookupA st.tickers.historicalData s' = some [])
    (h3 : lookupA st.tickers.currentPrices s = none) :
    MarketDataService.getHistoricalData st s = [] ∧
    MarketDataService.getHistoricalData st s' = [] ∧
    MarketDataService.getHistoricalData st s = MarketDataService.getHistoricalData st s' ∧
    MarketDataService.getTicker st s = none := by
  unfold MarketDataService.getHistoricalData MarketDataService.getTicker
    TickerModel.getHistoricalData TickerModel.getTicker
  rw [h1, h2, h3]
  exact ⟨rfl, rfl, rfl, rfl⟩

/-- C10 witness: a concrete state with one known symbol with empty
history, queried for an unknown symbol. -/
theorem spec_C10_witness :
    MarketDataService.getHistoricalData ⟨[], ⟨[], [("KNOWN", [])]⟩⟩ "GHOST" = [] ∧
    MarketDataService.getHistoricalData ⟨[], ⟨[], [("KNOWN", [])]⟩⟩ "KNOWN" = [] ∧
    MarketDataService.getHistoricalData ⟨[], ⟨[], [("KNOWN", [])]⟩⟩ "GHOST" =
      MarketDataService.getHistoricalData ⟨[], ⟨[], [("KNOWN", [])]⟩⟩ "KNOWN" ∧
    MarketDataService.getTicker ⟨[], ⟨[], [("KNOWN", [])]⟩⟩ "GHOST" = none :=
  spec_C10_unknown_symbol_history_indistinguishable
    ⟨[], ⟨[], [("KNOWN", [])]⟩⟩ "GHOST" "KNOWN" rfl rfl rfl

/-- C3 (amended): `updatePrice` leaves the stored previous-close field
unchanged (it is only set at initialization / history-seed time); the
change fields are recomputed against that stored previous close:
`change = newPrice - previousClose` and
`changePercent = change / previousClose * 100`. -/
theorem spec_C3_change_against_stored_previousClose
    (t : Ticker) (cfg : TickerConfig) (rM rN rVol : ℚ) (now : ℕ) :
    (updateTicker t cfg rM rN rVol now).previousClose = t.previousClose ∧
    (updateTicker t cfg rM rN rVol now).change =
      (updateTicker t cfg rM rN rVol now).price - t.previousClose ∧
    (updateTicker t cfg rM rN rVol now).changePercent =
      ((updateTicker t cfg rM rN rVol now).price - t.previousClose) /
        t.previousClose * 100 :=
  ⟨rfl, rfl, rfl⟩

/-- C3 counterexample: a tick update on a stored AAPL ticker with price
`180` and previous close `100` leaves previous-close at `100`; the claim
says it would become the pre-update price `180`. -/
theorem spec_C3_counterexample :
    ((TickerModel.updatePrice c3State "AAPL" (1/2) (1/2) (1/2) 7).1.map
      (·.previousClose)) ≠ some aaplTicker0.price := by
  have hl : lookupA c3State.currentPrices "AAPL" = some aaplTicker0 := rfl
  have hf : TICKER_CONFIGS.find? (fun c => c.symbol == "AAPL") =
      some ⟨"AAPL", "Apple Inc.", 180, 15/1000, 1/10, 150, 220, 75000000⟩ := rfl
  unfold TickerModel.updatePrice
  rw [hl, hf]
  simp [updateTicker, aaplTicker0]

/-- C8: constructing the ticker model with a malformed instrument config
(`minPrice = 10 ≥ 5 = maxPrice`) completes normally — the model state
contains a ticker for the malformed symbol — instead of failing
initialization: the constructor performs no validation and has no failure
path at all. -/
theorem spec_C8_init_accepts_malformed_config :
    (TickerModel.init [badTickerConfig] (fun _ => 1/2) 0).currentPrices.map Prod.fst
        = ["BAD"] ∧
      badTickerConfig.maxPrice < badTickerConfig.minPrice :=
  ⟨rfl, by norm_num [badTickerConfig]⟩

/-- C9: on a known symbol (with its ticker present, as the constructor
guarantees), `subscribe` returns `true` and immediately sends the
connection one `price_update` carrying the current ticker snapshot — and
a repeat `subscribe` of the same connection returns `true` and re-sends
the same snapshot. -/
theorem spec_C9_subscribe_always_sends_snapshot
    (st : MDState) (S : Finset ℕ) (t : Ticker) (s : String) (w : ℕ)
    (hlk : lookupA st.subscribers s = some S)
    (ht : lookupA st.tickers.currentPrices s = some t) :
    (MarketDataService.subscribe st s w).1 = true ∧
    (MarketDataService.subscribe st s w).2.2 = [tickerToPriceUpdate t] ∧
    (MarketDataService.subscribe (MarketDataService.subscribe st s w).2.1 s w).1 = true ∧
    (MarketDataService.subscribe (MarketDataService.subscribe st s w).2.1 s w).2.2 =
      [tickerToPriceUpdate t] := by
  have ht' : TickerModel.getTicker st.tickers s = some t := ht
  obtain ⟨h1, h2⟩ := subscribe_result_known st s w S t hlk ht'
  have hst : (MarketDataService.subscribe st s w).2.1 =
      { st with subscribers := updateAssoc st.subscribers s (insert w S) } :=
    subscribe_state_known st s w S hlk
  have hlk2 : lookupA ((MarketDataService.subscribe st s w).2.1).subscribers s =
      some (insert w S) := by
    rw [hst]
    show lookupA (updateAssoc st.subscribers s (insert w S)) s = some (insert w S)
    rw [lookup_updateAssoc, hlk]
    rfl
  have ht2 : TickerModel.getTicker ((MarketDataService.subscribe st s w).2.1).tickers s =
      some t := by
    rw [hst]
    exact ht'
  obtain ⟨h3, h4⟩ := subscribe_result_known _ s w (insert w S) t hlk2 ht2
  exact ⟨h1, h2, h3, h4⟩

/-- C9 witness: concrete state, symbol AAPL, connection `7`. -/
theorem spec_C9_witness :
    (MarketDataService.subscribe
        ⟨[("AAPL", ∅)], ⟨[("AAPL", ⟨"AAPL", "Apple Inc.", 180, 179, 1, 1, 1000, 181, 179, 0⟩)], []⟩⟩
        "AAPL" 7).1 = true ∧
    (MarketDataService.subscribe
        ⟨[("AAPL", ∅)], ⟨[("AAPL", ⟨"AAPL", "Apple Inc.", 180, 179, 1, 1, 1000, 181, 179, 0⟩)], []⟩⟩
        "AAPL" 7).2.2 =
      [tickerToPriceUpdate ⟨"AAPL", "Apple Inc.", 180, 179, 1, 1, 1000, 181, 179, 0⟩] ∧
    (MarketDataService.subscribe
        (MarketDataService.subscribe
          ⟨[("AAPL", ∅)], ⟨[("AAPL", ⟨"AAPL", "Apple Inc.", 180, 179, 1, 1, 1000, 181, 179, 0⟩)], []⟩⟩
          "AAPL" 7).2.1 "AAPL" 7).1 = true ∧
    (MarketDataService.subscribe
        (MarketDataService.subscribe
          ⟨[("AAPL", ∅)], ⟨[("AAPL", ⟨"AAPL", "Apple Inc.", 180, 179, 1, 1, 1000, 181, 179, 0⟩)], []⟩⟩
          "AAPL" 7).2.1 "AAPL" 7).2.2 =
      [tickerToPriceUpdate ⟨"AAPL", "Apple Inc.", 180, 179, 1, 1, 1000, 181, 179, 0⟩] :=
  spec_C9_subscribe_always_sends_snapshot
    ⟨[("AAPL", ∅)], ⟨[("AAPL", ⟨"AAPL", "Apple Inc.", 180, 179, 1, 1, 1000, 181, 179, 0⟩)], []⟩⟩
    ∅ ⟨"AAPL", "Apple Inc.", 180, 179, 1, 1, 1000, 181, 179, 0⟩ "AAPL" 7 rfl rfl

/-- C5 (amended): on a known symbol, `subscribe` is idempotent (a second
subscribe of the same connection leaves the whole state as after one) and
`unsubscribe` removes the connection from the interest set — both for any
connection, already a member or not; the double
`subscribe`-then-`unsubscribe` sequence leaves the interest set equal to
its original value with the connection removed, hence equal to its
original value whenever the connection was not already in it. -/
theorem spec_C5_subscription_algebra
    (st : MDState) (s : String) (w : ℕ) (S : Finset ℕ)
    (hlk : lookupA st.subscribers s = some S) :
    (MarketDataService.subscribe (MarketDataService.subscribe st s w).2.1 s w).2.1 =
      (MarketDataService.subscribe st s w).2.1 ∧
    (lookupA ((MarketDataService.unsubscribe st s w).2).subscribers s =
        some (S.erase w) ∧ w ∉ S.erase w) ∧
    lookupA (MarketDataService.subscribeThenUnsubscribe
        (MarketDataService.subscribeThenUnsubscribe st s w) s w).subscribers s =
      some (S.erase w) ∧
    (w ∉ S →
      lookupA (MarketDataService.subscribeThenUnsubscribe
          (MarketDataService.subscribeThenUnsubscribe st s w) s w).subscribers s =
        some S) := by
  have hst1 : (MarketDataService.subscribe st s w).2.1 =
      { st with subscribers := updateAssoc st.subscribers s (insert w S) } :=
    subscribe_state_known st s w S hlk
  have hlk1 : lookupA ((MarketDataService.subscribe st s w).2.1).subscribers s =
      some (insert w S) := by
    rw [hst1]
    show lookupA (updateAssoc st.subscribers s (insert w S)) s = some (insert w S)
    rw [lookup_updateAssoc, hlk]
    rfl
  have key : ∀ (st' : MDState) (S' : Finset ℕ), lookupA st'.subscribers s = some S' →
      lookupA (MarketDataService.subscribeThenUnsubscribe st' s w).subscribers s =
        some (S'.erase w) := by
    intro st' S' h
    have hs1 := subscribe_state_known st' s w S' h
    have hl1 : lookupA ((MarketDataService.subscribe st' s w).2.1).subscribers s =
        some (insert w S') := by
      rw [hs1]
      show lookupA (updateAssoc st'.subscribers s (insert w S')) s = some (insert w S')
      rw [lookup_updateAssoc, h]
      rfl
    have hu := unsubscribe_state_known _ s w (insert w S') hl1
    unfold MarketDataService.subscribeThenUnsubscribe
    rw [hu]
    show lookupA (updateAssoc ((MarketDataService.subscribe st' s w).2.1).subscribers s
        ((insert w S').erase w)) s = some (S'.erase w)
    rw [Finset.erase_insert_eq_erase, lookup_updateAssoc, hl1]
    rfl
  have hfinal : lookupA (MarketDataService.subscribeThenUnsubscribe
      (MarketDataService.subscribeThenUnsubscribe st s w) s w).subscribers s =
      some (S.erase w) := by
    have step2 := key _ (S.erase w) (key st S hlk)
    rwa [Finset.erase_idem] at step2
  refine ⟨?_, ⟨?_, Finset.not_mem_erase w S⟩, hfinal, ?_⟩
  · have hst2 := subscribe_state_known _ s w (insert w S) hlk1
    rw [hst2, hst1]
    simp [updateAssoc_updateAssoc, Finset.insert_idem]
  · rw [unsubscribe_state_known st s w S hlk]
    show lookupA (updateAssoc st.subscribers s (S.erase w)) s = some (S.erase w)
    rw [lookup_updateAssoc, hlk]
    rfl
  · intro hw
    rw [hfinal, Finset.erase_eq_of_not_mem hw]

/-- C5 witness: AAPL interest set `{3, 9}` with connection `3` already a
member, so the removal conjuncts act on an actual member. -/
theorem spec_C5_witness :
    (MarketDataService.subscribe
        (MarketDataService.subscribe ⟨[("AAPL", {3, 9})], ⟨[], []⟩⟩ "AAPL" 3).2.1 "AAPL" 3).2.1 =
      (MarketDataService.subscribe ⟨[("AAPL", {3, 9})], ⟨[], []⟩⟩ "AAPL" 3).2.1 ∧
    (lookupA ((MarketDataService.unsubscribe ⟨[("AAPL", {3, 9})], ⟨[], []⟩⟩ "AAPL" 3).2).subscribers
        "AAPL" = some (({3, 9} : Finset ℕ).erase 3) ∧ 3 ∉ ({3, 9} : Finset ℕ).erase 3) ∧
    lookupA (MarketDataService.subscribeThenUnsubscribe
        (MarketDataService.subscribeThenUnsubscribe ⟨[("AAPL", {3, 9})], ⟨[], []⟩⟩ "AAPL" 3)
        "AAPL" 3).subscribers "AAPL" = some (({3, 9} : Finset ℕ).erase 3) ∧
    (3 ∉ ({3, 9} : Finset ℕ) →
      lookupA (MarketDataService.subscribeThenUnsubscribe
          (MarketDataService.subscribeThenUnsubscribe ⟨[("AAPL", {3, 9})], ⟨[], []⟩⟩ "AAPL" 3)
          "AAPL" 3).subscribers "AAPL" = some ({3, 9} : Finset ℕ)) :=
  spec_C5_subscription_algebra ⟨[("AAPL", {3, 9})], ⟨[], []⟩⟩ "AAPL" 3 {3, 9} rfl

/-- C5 counterexample: when connection `0` is already in AAPL's interest
set `{0}`, subscribing then unsubscribing it twice yields the empty
interest set — the original value minus the connection — not the original
value, refuting the claim as stated. -/
theorem spec_C5_counterexample :
    lookupA (MarketDataService.subscribeThenUnsubscribe
        (MarketDataService.subscribeThenUnsubscribe c5MDState "AAPL" 0) "AAPL" 0).subscribers
      "AAPL" = some (∅ : Finset ℕ) ∧
    lookupA (MarketDataService.subscribeThenUnsubscribe
        (MarketDataService.subscribeThenUnsubscribe c5MDState "AAPL" 0) "AAPL" 0).subscribers
      "AAPL" ≠ some ({0} : Finset ℕ) := by decide

/-- C1: any alert with direction `above` and threshold `150` that is
active and untriggered while its symbol's price is `149` fires exactly
once on the tick sequence `149 → 151 → 152`: nothing at `149`, exactly one
triggered event at the `151` tick (stamped with that tick's time), nothing
at `152`, and no event on any sequence of later ticks. -/
theorem spec_C1_alert_fires_exactly_once
    (a : PriceAlert) (uid sym : String) (n1 n2 n3 : ℕ) (t1 t2 t3 : Ticker)
    (hty : a.type = AlertType.above) (hth : a.threshold = 150)
    (hact : a.active = true) (htr : a.triggeredAt = none) (hsym : a.symbol = sym)
    (h1s : t1.symbol = sym) (h1p : t1.price = 149)
    (h2s : t2.symbol = sym) (h2p : t2.price = 151)
    (h3s : t3.symbol = sym) (h3p : t3.price = 152) :
    AlertsService.runTicks [(uid, [a])] [(t1, n1), (t2, n2), (t3, n3)] =
      ([fireAlert a n2], [(uid, [fireAlert a n2])]) ∧
    ∀ rest : List (Ticker × ℕ),
      (AlertsService.runTicks
        (AlertsService.runTicks [(uid, [a])] [(t1, n1), (t2, n2), (t3, n3)]).2
        rest).1 = [] := by
  have hf1 : fireCond a t1 = false := by
    simp [fireCond, hty, hth, h1s, h1p, hsym]
    norm_num
  have hf2 : fireCond a t2 = true := by
    simp [fireCond, hty, hth, hact, htr, h2s, h2p, hsym]
    norm_num
  have hf3 : (fireAlert a n2).triggeredAt.isSome := by simp [fireAlert]
  have e1 : AlertsService.checkAlerts [(uid, [a])] t1 n1 = ([], [(uid, [a])]) := by
    simp [AlertsService.checkAlerts, checkOne, hf1]
  have e2 : AlertsService.checkAlerts [(uid, [a])] t2 n2 =
      ([fireAlert a n2], [(uid, [fireAlert a n2])]) := by
    simp [AlertsService.checkAlerts, checkOne, hf2]
  have e3 := checkAlerts_fired_singleton uid (fireAlert a n2) hf3 t3 n3
  have hrun : AlertsService.runTicks [(uid, [a])] [(t1, n1), (t2, n2), (t3, n3)] =
      ([fireAlert a n2], [(uid, [fireAlert a n2])]) := by
    simp [AlertsService.runTicks, e1, e2, e3]
  refine ⟨hrun, ?_⟩
  intro rest
  rw [hrun]
  rw [runTicks_fired_singleton uid (fireAlert a n2) hf3 rest]

/-- C1 witness: a concrete above-150 AAPL alert against ticks priced 149,
151, 152. -/
theorem spec_C1_witness :
    AlertsService.runTicks
        [("user1", [⟨"alert_1", "user1", "AAPL", AlertType.above, 150, true, none, 0⟩])]
        [(⟨"AAPL", "Apple Inc.", 149, 148, 1, 1, 1000, 150, 148, 1⟩, 1),
         (⟨"AAPL", "Apple Inc.", 151, 148, 3, 2, 1100, 151, 148, 2⟩, 2),
         (⟨"AAPL", "Apple Inc.", 152, 148, 4, 3, 1200, 152, 148, 3⟩, 3)] =
      ([fireAlert ⟨"alert_1", "user1", "AAPL", AlertType.above, 150, true, none, 0⟩ 2],
       [("user1",
         [fireAlert ⟨"alert_1", "user1", "AAPL", AlertType.above, 150, true, none, 0⟩ 2])]) ∧
    ∀ rest : List (Ticker × ℕ),
      (AlertsService.runTicks
        (AlertsService.runTicks
          [("user1", [⟨"alert_1", "user1", "AAPL", AlertType.above, 150, true, none, 0⟩])]
          [(⟨"AAPL", "Apple Inc.", 149, 148, 1, 1, 1000, 150, 148, 1⟩, 1),
           (⟨"AAPL", "Apple Inc.", 151, 148, 3, 2, 1100, 151, 148, 2⟩, 2),
           (⟨"AAPL", "Apple Inc.", 152, 148, 4, 3, 1200, 152, 148, 3⟩, 3)]).2
        rest).1 = [] :=
  spec_C1_alert_fires_exactly_once
    ⟨"alert_1", "user1", "AAPL", AlertType.above, 150, true, none, 0⟩
    "user1" "AAPL" 1 2 3
    ⟨"AAPL", "Apple Inc.", 149, 148, 1, 1, 1000, 150, 148, 1⟩
    ⟨"AAPL", "Apple Inc.", 151, 148, 3, 2, 1100, 151, 148, 2⟩
    ⟨"AAPL", "Apple Inc.", 152, 148, 4, 3, 1200, 152, 148, 3⟩
    rfl rfl rfl rfl rfl rfl rfl rfl rfl rfl rfl

/-- C6: `toggleAlert` flips only the `active` flag of the first alert with
the requested id, never touching `triggeredAt`; toggling twice restores
the original list (hence the original `active` value); and toggling an
already-fired alert back to active does not re-arm it — `checkAlerts`
emits nothing for it on any sequence of later ticks. -/
theorem spec_C6_toggle_is_involutive_and_never_rearms
    (u i : String) (as : List PriceAlert) (a : PriceAlert)
    (ticks : List (Ticker × ℕ))
    (hfired : a.triggeredAt.isSome) (hinactive : a.active = false) :
    (AlertsService.toggleAlert [(u, as)] u i).2 =
      [(u, AlertsService.toggleFirst i as)] ∧
    (AlertsService.toggleFirst i as).map (·.triggeredAt) = as.map (·.triggeredAt) ∧
    (∀ a' ∈ AlertsService.toggleFirst i as,
      ∃ b ∈ as, a' = b ∨ a' = { b with active := !b.active }) ∧
    AlertsService.toggleFirst i (AlertsService.toggleFirst i as) = as ∧
    AlertsService.toggleFirst a.id [a] = [{ a with active := true }] ∧
    (AlertsService.runTicks [(u, AlertsService.toggleFirst a.id [a])] ticks).1 = [] := by
  have htog : AlertsService.toggleFirst a.id [a] = [{ a with active := true }] := by
    simp [AlertsService.toggleFirst, hinactive]
  refine ⟨?_, toggleFirst_triggeredAt i as, toggleFirst_shape i as,
      toggleFirst_toggleFirst i as, htog, ?_⟩
  · rcases hfind : as.find? (fun x => x.id == i) with _ | b
    · simp [AlertsService.toggleAlert, lookupA, hfind,
        toggleFirst_of_find?_none i as hfind]
    · simp [AlertsService.toggleAlert, lookupA, hfind, updateAssoc]
  · rw [htog]
    have hf : ({ a with active := true } : PriceAlert).triggeredAt.isSome := hfired
    rw [runTicks_fired_singleton u { a with active := true } hf ticks]

/-- C6 witness: a previously-fired AAPL alert in a two-alert list. -/
theorem spec_C6_witness :
    (AlertsService.toggleAlert
        [("user1", [⟨"alert_1", "user1", "AAPL", AlertType.above, 150, false, some 5, 0⟩,
                    ⟨"alert_2", "user1", "TSLA", AlertType.below, 200, true, none, 0⟩])]
        "user1" "alert_2").2 =
      [("user1", AlertsService.toggleFirst "alert_2"
          [⟨"alert_1", "user1", "AAPL", AlertType.above, 150, false, some 5, 0⟩,
           ⟨"alert_2", "user1", "TSLA", AlertType.below, 200, true, none, 0⟩])] ∧
    (AlertsService.toggleFirst "alert_2"
        [⟨"alert_1", "user1", "AAPL", AlertType.above, 150, false, some 5, 0⟩,
         ⟨"alert_2", "user1", "TSLA", AlertType.below, 200, true, none, 0⟩]).map
        (·.triggeredAt) =
      ([⟨"alert_1", "user1", "AAPL", AlertType.above, 150, false, some 5, 0⟩,
        ⟨"alert_2", "user1", "TSLA", AlertType.below, 200, true, none, 0⟩] :
        List PriceAlert).map
        (·.triggeredAt) ∧
    (∀ a' ∈ AlertsService.toggleFirst "alert_2"
        [⟨"alert_1", "user1", "AAPL", AlertType.above, 150, false, some 5, 0⟩,
         ⟨"alert_2", "user1", "TSLA", AlertType.below, 200, true, none, 0⟩],
      ∃ b ∈ ([⟨"alert_1", "user1", "AAPL", AlertType.above, 150, false, some 5, 0⟩,
              ⟨"alert_2", "user1", "TSLA", AlertType.below, 200, true, none, 0⟩] :
              List PriceAlert),
        a' = b ∨ a' = { b with active := !b.active }) ∧
    AlertsService.toggleFirst "alert_2" (AlertsService.toggleFirst "alert_2"
        [⟨"alert_1", "user1", "AAPL", AlertType.above, 150, false, some 5, 0⟩,
         ⟨"alert_2", "user1", "TSLA", AlertType.below, 200, true, none, 0⟩]) =
      [⟨"alert_1", "user1", "AAPL", AlertType.above, 150, false, some 5, 0⟩,
       ⟨"alert_2", "user1", "TSLA", AlertType.below, 200, true, none, 0⟩] ∧
    AlertsService.toggleFirst
        (⟨"alert_1", "user1", "AAPL", AlertType.above, 150, false, some 5, 0⟩ : PriceAlert).id
        [⟨"alert_1", "user1", "AAPL", AlertType.above, 150, false, some 5, 0⟩] =
      [{ (⟨"alert_1", "user1", "AAPL", AlertType.above, 150, false, some 5, 0⟩ : PriceAlert)
          with active := true }] ∧
    (AlertsService.runTicks
        [("user1", AlertsService.toggleFirst
          (⟨"alert_1", "user1", "AAPL", AlertType.above, 150, false, some 5, 0⟩ : PriceAlert).id
          [⟨"alert_1", "user1", "AAPL", AlertType.above, 150, false, some 5, 0⟩])]
        [(⟨"AAPL", "Apple Inc.", 151, 148, 3, 2, 1100, 151, 148, 2⟩, 9)]).1 = [] :=
  spec_C6_toggle_is_involutive_and_never_rearms "user1" "alert_2"
    [⟨"alert_1", "user1", "AAPL", AlertType.above, 150, false, some 5, 0⟩,
     ⟨"alert_2", "user1", "TSLA", AlertType.below, 200, true, none, 0⟩]
    ⟨"alert_1", "user1", "AAPL", AlertType.above, 150, false, some 5, 0⟩
    [(⟨"AAPL", "Apple Inc.", 151, 148, 3, 2, 1100, 151, 148, 2⟩, 9)]
    rfl rfl

/-- C2: for a configured symbol, after any `updatePrice` step the updated
ticker satisfies `low ≤ price ≤ high` and its price lies within the
instrument's `[minPrice, maxPrice]` — from any prior ticker state, hence
after every update of any tick sequence. -/
theorem spec_C2_price_invariants
    (st : TickerModelState) (s : String) (cfg : TickerConfig) (t : Ticker)
    (rM rN rVol : ℚ) (now : ℕ)
    (hlk : lookupA st.currentPrices s = some t)
    (hfind : TICKER_CONFIGS.find? (fun c => c.symbol == s) = some cfg) :
    (TickerModel.updatePrice st s rM rN rVol now).1 =
      some (updateTicker t cfg rM rN rVol now) ∧
    (updateTicker t cfg rM rN rVol now).low ≤ (updateTicker t cfg rM rN rVol now).price ∧
    (updateTicker t cfg rM rN rVol now).price ≤ (updateTicker t cfg rM rN rVol now).high ∧
    cfg.minPrice ≤ (updateTicker t cfg rM rN rVol now).price ∧
    (updateTicker t cfg rM rN rVol now).price ≤ cfg.maxPrice := by
  have hmem : cfg ∈ TICKER_CONFIGS := List.mem_of_find?_eq_some hfind
  obtain ⟨hc1, hc2, hc3, _, _, _, _, _⟩ := config_facts cfg hmem
  obtain ⟨hbnd1, hbnd2⟩ := generateNextPrice_bounds t.price cfg rM rN hc1 hc2 hc3
  refine ⟨?_, ?_, ?_, hbnd1, hbnd2⟩
  · unfold TickerModel.updatePrice
    rw [hlk, hfind]
  · exact min_le_right _ _
  · exact le_max_right _ _

/-- C2 witness: a concrete stored AAPL ticker updated once. -/
theorem spec_C2_witness :
    (TickerModel.updatePrice ⟨[("AAPL", ⟨"AAPL", "Apple Inc.", 180, 177, 3, 1, 1000, 182, 178, 0⟩)], []⟩
        "AAPL" (1/2) (1/2) (1/2) 7).1 =
      some (updateTicker ⟨"AAPL", "Apple Inc.", 180, 177, 3, 1, 1000, 182, 178, 0⟩
        ⟨"AAPL", "Apple Inc.", 180, 15/1000, 1/10, 150, 220, 75000000⟩ (1/2) (1/2) (1/2) 7) ∧
    (updateTicker ⟨"AAPL", "Apple Inc.", 180, 177, 3, 1, 1000, 182, 178, 0⟩
        ⟨"AAPL", "Apple Inc.", 180, 15/1000, 1/10, 150, 220, 75000000⟩ (1/2) (1/2) (1/2) 7).low ≤
      (updateTicker ⟨"AAPL", "Apple Inc.", 180, 177, 3, 1, 1000, 182, 178, 0⟩
        ⟨"AAPL", "Apple Inc.", 180, 15/1000, 1/10, 150, 220, 75000000⟩ (1/2) (1/2) (1/2) 7).price ∧
    (updateTicker ⟨"AAPL", "Apple Inc.", 180, 177, 3, 1, 1000, 182, 178, 0⟩
        ⟨"AAPL", "Apple Inc.", 180, 15/1000, 1/10, 150, 220, 75000000⟩ (1/2) (1/2) (1/2) 7).price ≤
      (updateTicker ⟨"AAPL", "Apple Inc.", 180, 177, 3, 1, 1000, 182, 178, 0⟩
        ⟨"AAPL", "Apple Inc.", 180, 15/1000, 1/10, 150, 220, 75000000⟩ (1/2) (1/2) (1/2) 7).high ∧
    (⟨"AAPL", "Apple Inc.", 180, 15/1000, 1/10, 150, 220, 75000000⟩ : TickerConfig).minPrice ≤
      (updateTicker ⟨"AAPL", "Apple Inc.", 180, 177, 3, 1, 1000, 182, 178, 0⟩
        ⟨"AAPL", "Apple Inc.", 180, 15/1000, 1/10, 150, 220, 75000000⟩ (1/2) (1/2) (1/2) 7).price ∧
    (updateTicker ⟨"AAPL", "Apple Inc.", 180, 177, 3, 1, 1000, 182, 178, 0⟩
        ⟨"AAPL", "Apple Inc.", 180, 15/1000, 1/10, 150, 220, 75000000⟩ (1/2) (1/2) (1/2) 7).price ≤
      (⟨"AAPL", "Apple Inc.", 180, 15/1000, 1/10, 150, 220, 75000000⟩ : TickerConfig).maxPrice :=
  spec_C2_price_invariants
    ⟨[("AAPL", ⟨"AAPL", "Apple Inc.", 180, 177, 3, 1, 1000, 182, 178, 0⟩)], []⟩ "AAPL"
    ⟨"AAPL", "Apple Inc.", 180, 15/1000, 1/10, 150, 220, 75000000⟩
    ⟨"AAPL", "Apple Inc.", 180, 177, 3, 1, 1000, 182, 178, 0⟩
    (1/2) (1/2) (1/2) 7 rfl rfl

/-- C4: for a configured instrument, whenever the candidate next price
deviates from the base price by more than 20 %, `generateNextPrice`
subtracts 5 % of that deviation before clamping, and the returned price is
strictly closer to the base price than the unmitigated candidate. -/
theorem spec_C4_mean_reversion
    (cfg : TickerConfig) (hmem : cfg ∈ TICKER_CONFIGS) (current rM rN : ℚ)
    (hdev : 1/5 < |(candidatePrice current cfg rM rN - cfg.basePrice) / cfg.basePrice|) :
    generateNextPrice current cfg rM rN =
      round2 (max cfg.minPrice (min cfg.maxPrice
        (candidatePrice current cfg rM rN -
          (candidatePrice current cfg rM rN - cfg.basePrice) / cfg.basePrice *
            cfg.basePrice * (5/100)))) ∧
    |generateNextPrice current cfg rM rN - cfg.basePrice| <
      |candidatePrice current cfg rM rN - cfg.basePrice| := by
  obtain ⟨hc1, hc2, hc3, hminpos, hminb, hbmax, hb140, _⟩ := config_facts cfg hmem
  have hb : 0 < cfg.basePrice := by linarith
  set c := candidatePrice current cfg rM rN with hcdef
  set b := cfg.basePrice with hbdef
  have hm : mitigated current cfg rM rN = c - (c - b) / b * b * (5/100) := by
    show (if 1/5 < |(c - b) / b| then c - (c - b) / b * b * (5/100) else c) =
      c - (c - b) / b * b * (5/100)
    rw [if_pos hdev]
  have hd : b / 5 < |c - b| := by
    rw [abs_div, abs_of_pos hb] at hdev
    have := (lt_div_iff hb).mp hdev
    linarith
  have hmb : c - (c - b) / b * b * (5/100) - b = (19/20) * (c - b) := by
    field_simp
    ring
  refine ⟨by rw [generateNextPrice_eq, hm], ?_⟩
  rw [generateNextPrice_eq, hm]
  have h1 := round2_err (max cfg.minPrice (min cfg.maxPrice (c - (c - b) / b * b * (5/100))))
  have h2 : |max cfg.minPrice (min cfg.maxPrice (c - (c - b) / b * b * (5/100))) - b| ≤
      |c - (c - b) / b * b * (5/100) - b| := clamp_abs_le hminb hbmax
  have h3 : |c - (c - b) / b * b * (5/100) - b| = (19/20) * |c - b| := by
    rw [hmb, abs_mul, abs_of_pos (by norm_num : (0:ℚ) < 19/20)]
  have htri := abs_sub_le
    (round2 (max cfg.minPrice (min cfg.maxPrice (c - (c - b) / b * b * (5/100)))))
    (max cfg.minPrice (min cfg.maxPrice (c - (c - b) / b * b * (5/100)))) b
  rw [h3] at h2
  have habs : 0 ≤ |c - b| := abs_nonneg _
  have hbig : (28 : ℚ) ≤ b / 5 := by linarith
  calc |round2 (max cfg.minPrice (min cfg.maxPrice (c - (c - b) / b * b * (5/100)))) - b|
      ≤ |round2 (max cfg.minPrice (min cfg.maxPrice (c - (c - b) / b * b * (5/100)))) -
          max cfg.minPrice (min cfg.maxPrice (c - (c - b) / b * b * (5/100)))| +
        |max cfg.minPrice (min cfg.maxPrice (c - (c - b) / b * b * (5/100))) - b| := htri
    _ ≤ 1/200 + (19/20) * |c - b| := add_le_add h1 h2
    _ < |c - b| := by linarith

/-- C4 witness: AAPL config, current price 250 (candidate ≈ 250.004,
deviation ≈ 39 % of the base 180). -/
theorem spec_C4_witness :
    generateNextPrice 250 ⟨"AAPL", "Apple Inc.", 180, 15/1000, 1/10, 150, 220, 75000000⟩
        (1/2) (1/2) =
      round2 (max (150 : ℚ) (min (220 : ℚ)
        (candidatePrice 250 ⟨"AAPL", "Apple Inc.", 180, 15/1000, 1/10, 150, 220, 75000000⟩
            (1/2) (1/2) -
          (candidatePrice 250 ⟨"AAPL", "Apple Inc.", 180, 15/1000, 1/10, 150, 220, 75000000⟩
              (1/2) (1/2) - 180) / 180 * 180 * (5/100)))) ∧
    |generateNextPrice 250 ⟨"AAPL", "Apple Inc.", 180, 15/1000, 1/10, 150, 220, 75000000⟩
        (1/2) (1/2) - 180| <
      |candidatePrice 250 ⟨"AAPL", "Apple Inc.", 180, 15/1000, 1/10, 150, 220, 75000000⟩
        (1/2) (1/2) - 180| :=
  spec_C4_mean_reversion ⟨"AAPL", "Apple Inc.", 180, 15/1000, 1/10, 150, 220, 75000000⟩
    (by simp [TICKER_CONFIGS]) 250 (1/2) (1/2)
    (by rw [abs_of_pos (by norm_num [candidatePrice])]; norm_num [candidatePrice])

/-- C7: for a configured symbol, every candle of the startup historical
seed series satisfies `low ≤ min(open, close)` and
`max(open, close) ≤ high`, and the candle timestamps are strictly
increasing, for any `Math.random()` stream with values in `[0, 1)`. -/
theorem spec_C7_seed_series_wellformed
    (cfg : TickerConfig) (hmem : cfg ∈ TICKER_CONFIGS) (rng : ℕ → ℚ)
    (hrng : ∀ i, 0 ≤ rng i ∧ rng i < 1) :
    (∀ pt ∈ (generateHistoricalData cfg rng).1,
        pt.low ≤ min pt.openP pt.close ∧ max pt.openP pt.close ≤ pt.high) ∧
    List.Pairwise (· < ·) (((generateHistoricalData cfg rng).1).map (·.timestamp)) := by
  obtain ⟨hc1, _, _, hminpos, hminb, _, hb140, hvol⟩ := config_facts cfg hmem
  have hrng0 : ∀ i, 0 ≤ rng i := fun i => (hrng i).1
  have hmin0 : 0 ≤ cfg.minPrice := le_of_lt hminpos
  have hbase0 : 0 ≤ cfg.basePrice := by linarith
  constructor
  · intro pt hpt
    simp only [generateHistoricalData, List.mem_append] at hpt
    rcases hpt with h | h
    · exact genLoop_ohlc cfg rng (1/2) (3/10) (2/5) hrng0 hvol (by norm_num) hmin0 hc1
        dailyTimestamps cfg.basePrice 0 hbase0 pt h
    · exact genLoop_ohlc cfg rng (3/10) (1/10) (1/5) hrng0 hvol (by norm_num) hmin0 hc1
        intradayTimestamps _ _
        (genLoop_price_nonneg cfg rng (1/2) (3/10) (2/5) hmin0 hc1 dailyTimestamps
          cfg.basePrice 0 hbase0) pt h
  · have hmap : ((generateHistoricalData cfg rng).1).map (·.timestamp) =
        dailyTimestamps ++ intradayTimestamps := by
      simp only [generateHistoricalData]
      rw [List.map_append, genLoop_timestamps, genLoop_timestamps]
    rw [hmap]
    exact seed_timestamps_sorted

/-- C7 witness: the AAPL config with the constant stream `1/2`. -/
theorem spec_C7_witness :
    (∀ pt ∈ (generateHistoricalData
        ⟨"AAPL", "Apple Inc.", 180, 15/1000, 1/10, 150, 220, 75000000⟩ (fun _ => 1/2)).1,
      pt.low ≤ min pt.openP pt.close ∧ max pt.openP pt.close ≤ pt.high) ∧
    List.Pairwise (· < ·) (((generateHistoricalData
        ⟨"AAPL", "Apple Inc.", 180, 15/1000, 1/10, 150, 220, 75000000⟩
        (fun _ => 1/2)).1).map (·.timestamp)) :=
  spec_C7_seed_series_wellformed
    ⟨"AAPL", "Apple Inc.", 180, 15/1000, 1/10, 150, 220, 75000000⟩
    (by simp [TICKER_CONFIGS]) (fun _ => 1/2)
    (fun i => ⟨by norm_num, by norm_num⟩)
